import Mathlib

/-!
Verification of `migrate_bitbucket_snippets_to_bookstack.py`.

The script migrates Bitbucket snippets (artifacts) into BookStack books
(containers) and their files into pages, replaying each file's commit
history as a sequence of page revisions.  We shallowly embed the pieces
of the program the claims are about:

* `get_paginated_results` (lines 57-75): pagination over a cursor-linked
  listing endpoint.  The network is modelled by the list of responses the
  server returns for the successive requests.
* `get_bitbucket_snippets` (lines 79-94) and the exit logic of `main`
  (lines 274-280): exit-code behaviour.
* `get_snippet_commits` (lines 105-115): commit-history fetch, reversed to
  oldest-first.
* the commit fallback in `main` (lines 327-335): synthesising a single
  "current state" commit when the history is empty.
* the per-file replay loop in `main` (lines 339-413): the page
  synchronizer.  Its loop body becomes `syncStep`, the loop becomes
  `syncRun`; the Python `break` on page-create failure is modelled by the
  `aborted` flag (an aborted state ignores all further revisions, exactly
  as `break` leaves the remaining commits unprocessed).

Remote-call outcomes (file content at a commit, whether a page create
returns a usable id, the id it returns) are inputs of the model, since the
program treats them as data coming back from the network.
-/

namespace Migrate

/-- Commit metadata as consumed by the replay loop (lines 361-365):
`commit['hash']`, `commit.get('date', ...)`, `commit.get('message', ...)`,
`commit.get('author', {}).get('raw', ...)`. -/
structure Commit where
  hash : String
  date : String
  message : String
  author : String
deriving Repr, DecidableEq

/-- The `commit_info` string built at line 365:
`f"Commit {commit_hash[:7]} by {commit_author} on {commit_date}. Msg: {commit_message}"`. -/
def commit_info (c : Commit) : String :=
  "Commit " ++ c.hash.take 7 ++ " by " ++ c.author ++ " on " ++ c.date
    ++ ". Msg: " ++ c.message

/-- Payload composition, lines 377-379: `header_info = f"\n\n"` followed by
`page_content = header_info + content`.  The f-string at line 378 contains no
placeholders, so the header is literally two newline characters and the
payload does not depend on the commit. -/
def page_content (content : String) : String := "\n\n" ++ content

/-- One revision of the replay loop, i.e. one iteration of
`for i, commit in enumerate(commits)` (line 360), together with the
responses the remote systems would give during that iteration:
* `content`: result of `get_snippet_revision_content` (line 370); `none`
  models the 404 / error case in which the revision is skipped (line 372);
* `createOk` / `newPageId`: whether `create_bookstack_page` would return a
  JSON object with an `id`, and that id (line 385);
* `updateOk`: whether `update_bookstack_page` would return a truthy result
  (line 398); the loop only logs a failed update, it never branches on it
  beyond the log line. -/
structure RevInput where
  commit : Commit
  content : Option String
  createOk : Bool
  newPageId : Nat
  updateOk : Bool
deriving Repr, DecidableEq

/-- A destination write call: `create_bookstack_page(book_id, filename,
page_content, headers, commit_info)` (line 384) or
`update_bookstack_page(page_id, page_content, headers, commit_info)`
(line 397).  We record the payload and the provenance string; book id and
file name are fixed throughout one file's replay. -/
inductive Call where
  | create : String → String → Call
  | update : Nat → String → String → Call
deriving Repr, DecidableEq

/-- Whether a call is a page-create call. -/
def Call.isCreate : Call → Bool
  | Call.create _ _ => true
  | Call.update _ _ _ => false

/-- Number of page-create calls in a call list. -/
def countCreates (cs : List Call) : Nat :=
  (cs.filter Call.isCreate).length

/-- The per-file replay state (lines 342-359): `page_id`,
`page_created_in_this_run`, `processed_first_commit_for_page`,
`previous_page_content`, plus `aborted`, which models having executed the
`break` at line 392 (no further commits are processed). -/
structure SyncState where
  pageId : Option Nat
  createdThisRun : Bool
  processedFirstCommit : Bool
  prevContent : Option String
  aborted : Bool
deriving Repr, DecidableEq

/-- The state at the top of a file's replay (lines 342-359): `page_id` is
the id found by `find_bookstack_page` if the page pre-exists, otherwise
`None`; both flags are `False` and `previous_page_content` is `None`. -/
def initState (found : Option Nat) : SyncState :=
  { pageId := found, createdThisRun := false, processedFirstCommit := false,
    prevContent := none, aborted := false }

/-- One iteration of the replay loop body, lines 360-407.
* content `None`: `continue` (lines 372-375), nothing changes;
* `if not page_id and not page_created_in_this_run` (line 382): issue the
  create call; on success record the id and set both flags (lines 385-389),
  on failure `break` (line 392, modelled by `aborted`);
* `elif page_id and not processed_first_commit_for_page` (line 393):
  update when the payload differs from `previous_page_content`
  (lines 395-399), otherwise skip (line 401);
* `elif page_id and processed_first_commit_for_page` (line 402): clear the
  flag so the next commit updates (line 404);
* finally `previous_page_content = page_content` (line 407) on every path
  that did not `break`. -/
def syncStep (s : SyncState) (r : RevInput) : SyncState × List Call :=
  if s.aborted then (s, [])
  else
    match r.content with
    | none => (s, [])
    | some content =>
      let pc := page_content content
      let info := commit_info r.commit
      if s.pageId = none ∧ s.createdThisRun = false then
        if r.createOk then
          ({ pageId := some r.newPageId, createdThisRun := true,
             processedFirstCommit := true, prevContent := some pc,
             aborted := false },
           [Call.create pc info])
        else
          ({ s with aborted := true }, [Call.create pc info])
      else if s.pageId ≠ none ∧ s.processedFirstCommit = false then
        if s.prevContent ≠ some pc then
          ({ s with prevContent := some pc },
           [Call.update (s.pageId.getD 0) pc info])
        else
          ({ s with prevContent := some pc }, [])
      else if s.pageId ≠ none ∧ s.processedFirstCommit = true then
        ({ s with processedFirstCommit := false, prevContent := some pc }, [])
      else
        ({ s with prevContent := some pc }, [])

/-- The whole replay loop (lines 360-407) starting at revision index `i`:
returns the final state and the calls issued, each tagged with the index of
the revision that issued it. -/
def syncRun (s : SyncState) (i : Nat) : List RevInput → SyncState × List (Nat × Call)
  | [] => (s, [])
  | r :: rs =>
    let sc := syncStep s r
    let rest := syncRun sc.1 (i + 1) rs
    (rest.1, sc.2.map (fun c => (i, c)) ++ rest.2)

/-- The destination calls a file's replay issues, in order. -/
def syncCalls (s : SyncState) (rs : List RevInput) : List Call :=
  (syncRun s 0 rs).2.map Prod.snd

/-- One file of an artifact, with the per-file inputs of the replay
(lines 339-359): the file name, the result of `find_bookstack_page`
(`some id` when a page with the exact name exists, else `none`), and the
per-commit revision inputs. -/
structure FileInput where
  name : String
  found : Option Nat
  revs : List RevInput
deriving Repr, DecidableEq

/-- Replay of one file, lines 341-413: if the page exists and
`--skip-existing-pages` is set, `continue` without any call (lines 346-348);
otherwise run the commit loop from `initState` seeded with the found id. -/
def process_file (skipExisting : Bool) (f : FileInput) : List Call :=
  if skipExisting = true ∧ f.found.isSome = true then []
  else syncCalls (initState f.found) f.revs

/-- The file loop of one artifact, line 339: each file is processed by an
independent replay; we record each file's calls next to its name. -/
def process_files (skipExisting : Bool) (fs : List FileInput) :
    List (String × List Call) :=
  fs.map (fun f => (f.name, process_file skipExisting f))

/-- One response of the paginated listing endpoint, as seen by
`get_paginated_results` after `make_request` (line 63):
* `fail`: `make_request` returned `None` (HTTP error or JSON decode
  failure, lines 64-66);
* `noValues`: well-formed data without a `values` key (lines 68-70);
* `ok vs hasNext`: a `values` batch plus whether the response carries a
  `next` cursor (lines 72-73). -/
inductive PageResp (α : Type) where
  | fail : PageResp α
  | noValues : PageResp α
  | ok : List α → Bool → PageResp α
deriving Repr, DecidableEq

/-- `get_paginated_results` (lines 57-75), applied to the sequence of
responses the server returns for the successive `next` requests.  A
transport failure returns `None` discarding everything accumulated
(line 66); a missing `values` key breaks out of the loop returning what was
accumulated (line 70); otherwise the batch is appended and the loop
continues while a `next` cursor is present (lines 72-73).  An exhausted
response list stands for a response without a `next` cursor. -/
def get_paginated_results {α : Type} : List (PageResp α) → Option (List α)
  | [] => some []
  | PageResp.fail :: _ => none
  | PageResp.noValues :: _ => some []
  | PageResp.ok vs true :: rest =>
    match get_paginated_results rest with
    | none => none
    | some more => some (vs ++ more)
  | PageResp.ok vs false :: _ => some vs

/-- `get_snippet_commits` (lines 105-115): fetch the commit pages and
reverse the accumulated newest-first list to oldest-first (line 115);
a fetch failure propagates as `None` (lines 111-112). -/
def get_snippet_commits (pages : List (PageResp Commit)) : Option (List Commit) :=
  match get_paginated_results pages with
  | none => none
  | some cs => some cs.reverse

/-- The synthetic commit built at line 335 when the history is empty:
`{"hash": "HEAD", "date": snippet_details.get("updated_on", "N/A"),
"message": "Current state", "author": {"raw": "N/A"}}`. -/
def synthetic_commit (updatedOn : Option String) : Commit :=
  { hash := "HEAD", date := updatedOn.getD "N/A",
    message := "Current state", author := "N/A" }

/-- The commit-sequence resolution of `main`, lines 327-335: a failed fetch
(`commits is None`) skips the whole snippet (`continue`, line 330, modelled
as `none`); a successful but empty fetch proceeds with the single synthetic
commit (line 335); otherwise the fetched oldest-first list is used. -/
def resolve_commits (fetched : Option (List Commit)) (updatedOn : Option String) :
    Option (List Commit) :=
  match fetched with
  | none => none
  | some [] => some [synthetic_commit updatedOn]
  | some cs => some cs

/-- `get_bitbucket_snippets` (lines 79-94).  With a specific snippet id the
single-snippet response is wrapped: `[snippet_data] if snippet_data else []`
(line 86), so a failed fetch (`oneResult = none`) yields an EMPTY list, not
the failure sentinel.  Without a specific id the paginated listing is
returned, propagating its failure sentinel (lines 90-92). -/
def get_bitbucket_snippets {α : Type} (specific : Bool) (oneResult : Option α)
    (pages : List (PageResp α)) : Option (List α) :=
  if specific then
    some (match oneResult with
          | some s => [s]
          | none => [])
  else
    get_paginated_results pages

/-- The exit code of `main` (lines 274-280 and the end of `main`):
`sys.exit(1)` exactly when `get_bitbucket_snippets` returned `None`
(line 277); an empty list exits 0 (line 280), and the processing loops
never call `sys.exit` — every per-item failure is a logged `continue` or
`break` — so every other run ends with exit code 0. -/
def main_exit_code {α : Type} (specific : Bool) (oneResult : Option α)
    (pages : List (PageResp α)) : Nat :=
  match get_bitbucket_snippets specific oneResult pages with
  | none => 1
  | some _ => 0

/-- A replay state can still issue a page-create call only while the page id
is unset, nothing was created in this run and the loop was not aborted
(guard at line 382 together with the `break` at line 392). -/
def createsAllowed (s : SyncState) : Nat :=
  if s.pageId = none ∧ s.createdThisRun = false ∧ s.aborted = false then 1 else 0

/-! ### Concrete sample inputs, used to instantiate the theorems -/

/-- A sample commit. -/
def commitA : Commit := ⟨"a1b2c3d4e5", "2024-01-01", "first", "alice"⟩

/-- A second sample commit with different metadata. -/
def commitB : Commit := ⟨"f6e5d4c3b2", "2024-01-02", "second", "bob"⟩

/-- A third sample commit. -/
def commitC : Commit := ⟨"0011223344", "2024-01-03", "third", "carol"⟩

/-- Revision of `commitA` with content `"hello"`; creates succeed with id 7. -/
def revA : RevInput := ⟨commitA, some "hello", true, 7, true⟩

/-- Revision of `commitB` with the same content `"hello"` as `revA`. -/
def revB : RevInput := ⟨commitB, some "hello", true, 8, true⟩

/-- Revision of `commitC` with content `"world"`. -/
def revC : RevInput := ⟨commitC, some "world", true, 9, true⟩

/-- Revision whose content fetch returned not-found. -/
def revAbsent : RevInput := ⟨commitA, none, true, 7, true⟩

/-- Revision of `commitA` whose page-create call would fail. -/
def revAFail : RevInput := ⟨commitA, some "hello", false, 7, true⟩

/-- Revision of `commitC` whose page-update call would fail. -/
def revCUpdFail : RevInput := ⟨commitC, some "world", true, 9, false⟩

/-- A mid-replay state: page 7 known, last applied payload `"\n\nhello"`. -/
def sSame : SyncState :=
  { pageId := some 7, createdThisRun := false, processedFirstCommit := false,
    prevContent := some "\n\nhello", aborted := false }

/-- A file whose first create call fails. -/
def fileX : FileInput := ⟨"x", none, [revAFail, revC]⟩

/-- A sibling file with an ordinary replay. -/
def fileY : FileInput := ⟨"y", none, [revA, revC]⟩

/-! ### Basic lemmas about the replay step -/

theorem syncStep_of_aborted {s : SyncState} (r : RevInput) (h : s.aborted = true) :
    syncStep s r = (s, []) := by
  simp [syncStep, h]

theorem syncStep_of_none {s : SyncState} {r : RevInput} (h : r.content = none) :
    syncStep s r = (s, []) := by
  simp [syncStep, h]

theorem syncStep_create_ok {s : SyncState} {r : RevInput} {c : String}
    (ha : s.aborted = false) (hpid : s.pageId = none)
    (hcr : s.createdThisRun = false) (hc : r.content = some c)
    (hok : r.createOk = true) :
    syncStep s r =
      ({ pageId := some r.newPageId, createdThisRun := true,
         processedFirstCommit := true,
         prevContent := some (page_content c), aborted := false },
       [Call.create (page_content c) (commit_info r.commit)]) := by
  simp [syncStep, ha, hpid, hcr, hc, hok]

theorem syncStep_create_fail {s : SyncState} {r : RevInput} {c : String}
    (ha : s.aborted = false) (hpid : s.pageId = none)
    (hcr : s.createdThisRun = false) (hc : r.content = some c)
    (hok : r.createOk = false) :
    syncStep s r =
      ({ s with aborted := true },
       [Call.create (page_content c) (commit_info r.commit)]) := by
  simp [syncStep, ha, hpid, hcr, hc, hok]

theorem syncStep_update {s : SyncState} {r : RevInput} {pid : Nat} {c : String}
    (ha : s.aborted = false) (hpid : s.pageId = some pid)
    (hpfc : s.processedFirstCommit = false) (hc : r.content = some c)
    (hne : s.prevContent ≠ some (page_content c)) :
    syncStep s r =
      ({ s with prevContent := some (page_content c) },
       [Call.update pid (page_content c) (commit_info r.commit)]) := by
  simp [syncStep, ha, hpid, hpfc, hc, hne]

theorem syncStep_skip_same {s : SyncState} {r : RevInput} {pid : Nat} {c : String}
    (ha : s.aborted = false) (hpid : s.pageId = some pid)
    (hpfc : s.processedFirstCommit = false) (hc : r.content = some c)
    (heq : s.prevContent = some (page_content c)) :
    syncStep s r = ({ s with prevContent := some (page_content c) }, []) := by
  simp [syncStep, ha, hpid, hpfc, hc, heq]

theorem syncStep_after_create {s : SyncState} {r : RevInput} {pid : Nat} {c : String}
    (ha : s.aborted = false) (hpid : s.pageId = some pid)
    (hpfc : s.processedFirstCommit = true) (hc : r.content = some c) :
    syncStep s r =
      ({ s with processedFirstCommit := false,
                prevContent := some (page_content c) }, []) := by
  simp [syncStep, ha, hpid, hpfc, hc]

/-! ### Create-counting machinery -/

theorem countCreates_append (a b : List Call) :
    countCreates (a ++ b) = countCreates a + countCreates b := by
  simp [countCreates, List.filter_append]

theorem syncStep_creates_bound (s : SyncState) (r : RevInput) :
    countCreates (syncStep s r).2 + createsAllowed (syncStep s r).1 ≤
      createsAllowed s := by
  by_cases ha : s.aborted = true
  · simp [syncStep_of_aborted r ha, countCreates]
  · rw [Bool.not_eq_true] at ha
    cases hc : r.content with
    | none => simp [syncStep_of_none hc, countCreates]
    | some c =>
      by_cases h1 : s.pageId = none ∧ s.createdThisRun = false
      · cases hok : r.createOk with
        | true =>
          rw [syncStep_create_ok ha h1.1 h1.2 hc hok]
          simp [countCreates, createsAllowed, Call.isCreate, h1.1, h1.2, ha]
        | false =>
          rw [syncStep_create_fail ha h1.1 h1.2 hc hok]
          simp [countCreates, createsAllowed, Call.isCreate, h1.1, h1.2, ha]
      · have hall : createsAllowed s = 0 := by
          simp only [createsAllowed, ite_eq_right_iff]
          intro h
          exact absurd ⟨h.1, h.2.1⟩ h1
        rw [hall]
        rcases hpid : s.pageId with _ | pid
        · have hcr : s.createdThisRun = true := by
            rcases Bool.eq_false_or_eq_true s.createdThisRun with h | h
            · exact h
            · exact absurd ⟨hpid, h⟩ h1
          simp [syncStep, ha, hc, hpid, hcr, countCreates, createsAllowed]
        · cases hpfc : s.processedFirstCommit with
          | false =>
            by_cases hne : s.prevContent = some (page_content c)
            · rw [syncStep_skip_same ha hpid hpfc hc hne]
              simp [countCreates, createsAllowed, hpid]
            · rw [syncStep_update ha hpid hpfc hc hne]
              simp [countCreates, createsAllowed, Call.isCreate, hpid]
          | true =>
            rw [syncStep_after_create ha hpid hpfc hc]
            simp [countCreates, createsAllowed, hpid]

/-! ### Lemmas about the replay loop -/

theorem syncRun_of_aborted {s : SyncState} (i : Nat) (rs : List RevInput)
    (h : s.aborted = true) : syncRun s i rs = (s, []) := by
  induction rs generalizing i with
  | nil => rfl
  | cons r rs ih =>
    simp [syncRun, syncStep_of_aborted r h, ih]

theorem syncRun_of_absent {s : SyncState} {rs : List RevInput} (i : Nat)
    (h : ∀ r ∈ rs, r.content = none) : syncRun s i rs = (s, []) := by
  induction rs generalizing i with
  | nil => rfl
  | cons r rs ih =>
    have h1 : r.content = none := h r (List.mem_cons_self r rs)
    have h2 : ∀ r' ∈ rs, r'.content = none := fun r' hr' => h r' (List.mem_cons_of_mem r hr')
    simp [syncRun, syncStep_of_none h1, ih (i + 1) h2]

theorem syncRun_append (s : SyncState) (i : Nat) (xs ys : List RevInput) :
    syncRun s i (xs ++ ys) =
      ((syncRun (syncRun s i xs).1 (i + xs.length) ys).1,
       (syncRun s i xs).2 ++ (syncRun (syncRun s i xs).1 (i + xs.length) ys).2) := by
  induction xs generalizing s i with
  | nil => simp [syncRun]
  | cons x xs ih =>
    simp only [List.cons_append, syncRun, List.length_cons, List.append_eq]
    rw [ih]
    have hlen : i + 1 + xs.length = i + (xs.length + 1) := by omega
    rw [hlen, List.append_assoc]

theorem syncRun_creates_le (s : SyncState) (i : Nat) (rs : List RevInput) :
    countCreates ((syncRun s i rs).2.map Prod.snd) ≤ createsAllowed s := by
  induction rs generalizing s i with
  | nil => simp [syncRun, countCreates]
  | cons r rs ih =>
    have hstep := syncStep_creates_bound s r
    have hrest := ih (syncStep s r).1 (i + 1)
    simp only [syncRun, List.map_append]
    rw [countCreates_append]
    have hfst : ((syncStep s r).2.map (fun c => (i, c))).map Prod.snd = (syncStep s r).2 := by
      simp
    calc countCreates (((syncStep s r).2.map (fun c => (i, c))).map Prod.snd)
          + countCreates ((syncRun (syncStep s r).1 (i + 1) rs).2.map Prod.snd)
        = countCreates (syncStep s r).2
          + countCreates ((syncRun (syncStep s r).1 (i + 1) rs).2.map Prod.snd) := by
          rw [hfst]
      _ ≤ countCreates (syncStep s r).2 + createsAllowed (syncStep s r).1 := by
          exact Nat.add_le_add_left hrest _
      _ ≤ createsAllowed s := hstep

theorem syncRun_tag_ge (s : SyncState) (i : Nat) (rs : List RevInput) :
    ∀ p ∈ (syncRun s i rs).2, i ≤ p.1 := by
  induction rs generalizing s i with
  | nil => simp [syncRun]
  | cons r rs ih =>
    intro p hp
    simp only [syncRun, List.mem_append] at hp
    rcases hp with hp | hp
    · rcases List.mem_map.mp hp with ⟨c, _, rfl⟩
      exact Nat.le_refl i
    · exact Nat.le_of_succ_le (ih (syncStep s r).1 (i + 1) p hp)

theorem syncStep_calls_len (s : SyncState) (r : RevInput) :
    (syncStep s r).2 = [] ∨ ∃ c, (syncStep s r).2 = [c] := by
  by_cases ha : s.aborted = true
  · exact Or.inl (by simp [syncStep_of_aborted r ha])
  · rw [Bool.not_eq_true] at ha
    cases hc : r.content with
    | none => exact Or.inl (by simp [syncStep_of_none hc])
    | some c =>
      by_cases h1 : s.pageId = none ∧ s.createdThisRun = false
      · cases hok : r.createOk with
        | true =>
          exact Or.inr ⟨_, by rw [syncStep_create_ok ha h1.1 h1.2 hc hok]⟩
        | false =>
          exact Or.inr ⟨_, by rw [syncStep_create_fail ha h1.1 h1.2 hc hok]⟩
      · rcases hpid : s.pageId with _ | pid
        · have hcr : s.createdThisRun = true := by
            rcases Bool.eq_false_or_eq_true s.createdThisRun with h | h
            · exact h
            · exact absurd ⟨hpid, h⟩ h1
          exact Or.inl (by simp [syncStep, ha, hc, hpid, hcr])
        · cases hpfc : s.processedFirstCommit with
          | false =>
            by_cases hne : s.prevContent = some (page_content c)
            · exact Or.inl (by rw [syncStep_skip_same ha hpid hpfc hc hne])
            · exact Or.inr ⟨_, by rw [syncStep_update ha hpid hpfc hc hne]⟩
          | true =>
            exact Or.inl (by rw [syncStep_after_create ha hpid hpfc hc])

theorem syncRun_tags_sorted (s : SyncState) (i : Nat) (rs : List RevInput) :
    List.Pairwise (fun a b : Nat × Call => a.1 < b.1) (syncRun s i rs).2 := by
  induction rs generalizing s i with
  | nil => simp [syncRun]
  | cons r rs ih =>
    simp only [syncRun]
    rcases syncStep_calls_len s r with h | ⟨c, h⟩
    · simpa [h] using ih (syncStep s r).1 (i + 1)
    · rw [h]
      simp only [List.map_cons, List.map_nil, List.singleton_append]
      refine List.Pairwise.cons ?_ (ih (syncStep s r).1 (i + 1))
      intro q hq
      exact Nat.lt_of_succ_le (syncRun_tag_ge (syncStep s r).1 (i + 1) rs q hq)

theorem createsAllowed_le_one (s : SyncState) : createsAllowed s ≤ 1 := by
  unfold createsAllowed
  split <;> omega

theorem createsAllowed_initState_found (pid : Nat) :
    createsAllowed (initState (some pid)) = 0 := by
  simp [createsAllowed, initState]

/-- A file whose page was found pre-existing never issues a create call. -/
theorem creates_zero_of_found (pid : Nat) (rs : List RevInput) :
    countCreates (syncCalls (initState (some pid)) rs) = 0 := by
  have h := syncRun_creates_le (initState (some pid)) 0 rs
  rw [createsAllowed_initState_found] at h
  exact Nat.le_zero.mp h

/-- From the pristine state, the first revision with fetched content issues
the create call (line 384), whether or not it succeeds, and no later
revision of the file issues another create. -/
theorem syncRun_first_create (k : Nat) (r : RevInput) (rest : List RevInput)
    (c : String) (hc : r.content = some c) :
    (syncRun (initState none) k (r :: rest)).2.head? =
      some (k, Call.create (page_content c) (commit_info r.commit)) ∧
    countCreates ((syncRun (initState none) k (r :: rest)).2.map Prod.snd) = 1 := by
  cases hok : r.createOk with
  | true =>
    have hstep := syncStep_create_ok (s := initState none) (r := r)
      rfl rfl rfl hc hok
    simp only [syncRun, hstep, List.map_cons, List.map_nil, List.singleton_append,
      List.head?_cons, List.map_append]
    refine ⟨trivial, ?_⟩
    rw [show (Call.create (page_content c) (commit_info r.commit) ::
        List.map Prod.snd (syncRun
          { pageId := some r.newPageId, createdThisRun := true,
            processedFirstCommit := true, prevContent := some (page_content c),
            aborted := false } (k + 1) rest).2) =
        [Call.create (page_content c) (commit_info r.commit)] ++
        List.map Prod.snd (syncRun
          { pageId := some r.newPageId, createdThisRun := true,
            processedFirstCommit := true, prevContent := some (page_content c),
            aborted := false } (k + 1) rest).2 from rfl]
    rw [countCreates_append]
    have hrest := syncRun_creates_le
      ({ pageId := some r.newPageId, createdThisRun := true,
         processedFirstCommit := true, prevContent := some (page_content c),
         aborted := false } : SyncState) (k + 1) rest
    have hall : createsAllowed
        ({ pageId := some r.newPageId, createdThisRun := true,
           processedFirstCommit := true, prevContent := some (page_content c),
           aborted := false } : SyncState) = 0 := by
      simp [createsAllowed]
    rw [hall] at hrest
    have h1 : countCreates [Call.create (page_content c) (commit_info r.commit)] = 1 := by
      simp [countCreates, Call.isCreate]
    omega
  | false =>
    have hstep := syncStep_create_fail (s := initState none) (r := r)
      rfl rfl rfl hc hok
    simp only [syncRun, hstep]
    rw [syncRun_of_aborted (k + 1) rest (by rfl)]
    simp [countCreates, Call.isCreate]

/-- A step that issued an update call leaves the loop unaborted and the page
id untouched: the replay continues with the remaining commits
(lines 397-399, the failed update is only logged). -/
theorem syncStep_update_keeps_going (s : SyncState) (r : RevInput)
    (pid : Nat) (pc info : String)
    (h : (syncStep s r).2 = [Call.update pid pc info]) :
    (syncStep s r).1.aborted = false ∧ (syncStep s r).1.pageId = s.pageId := by
  by_cases ha : s.aborted = true
  · rw [syncStep_of_aborted r ha] at h
    exact absurd h (by simp)
  · rw [Bool.not_eq_true] at ha
    cases hc : r.content with
    | none =>
      rw [syncStep_of_none hc] at h
      exact absurd h (by simp)
    | some c =>
      by_cases h1 : s.pageId = none ∧ s.createdThisRun = false
      · cases hok : r.createOk with
        | true =>
          rw [syncStep_create_ok ha h1.1 h1.2 hc hok] at h
          simp at h
        | false =>
          rw [syncStep_create_fail ha h1.1 h1.2 hc hok] at h
          simp at h
      · rcases hpid : s.pageId with _ | pid'
        · have hcr : s.createdThisRun = true := by
            rcases Bool.eq_false_or_eq_true s.createdThisRun with hcr | hcr
            · exact hcr
            · exact absurd ⟨hpid, hcr⟩ h1
          have : syncStep s r = ({ s with prevContent := some (page_content c) }, []) := by
            simp [syncStep, ha, hc, hpid, hcr]
          rw [this] at h
          exact absurd h (by simp)
        · cases hpfc : s.processedFirstCommit with
          | false =>
            by_cases hne : s.prevContent = some (page_content c)
            · rw [syncStep_skip_same ha hpid hpfc hc hne] at h
              exact absurd h (by simp)
            · rw [syncStep_update ha hpid hpfc hc hne]
              exact ⟨ha, hpid⟩
          | true =>
            rw [syncStep_after_create ha hpid hpfc hc] at h
            exact absurd h (by simp)

/-! ### The claims -/

/-- Claim C1: in the replay loop, for a revision whose content was fetched,
if the page identifier is already set and this revision is not the one for
which the just-created suppression flag `processed_first_commit_for_page`
is active, then a payload equal to the previously recorded payload issues
no destination call (the "no change" skip at line 401), and a differing
payload issues an update call for that revision (lines 395-399). -/
theorem C1_update_or_skip (s : SyncState) (r : RevInput) (pid : Nat) (c : String)
    (ha : s.aborted = false) (hpid : s.pageId = some pid)
    (hpfc : s.processedFirstCommit = false) (hc : r.content = some c) :
    (s.prevContent = some (page_content c) → (syncStep s r).2 = []) ∧
    (s.prevContent ≠ some (page_content c) →
      (syncStep s r).2 =
        [Call.update pid (page_content c) (commit_info r.commit)]) := by
  constructor
  · intro heq
    rw [syncStep_skip_same ha hpid hpfc hc heq]
  · intro hne
    rw [syncStep_update ha hpid hpfc hc hne]

/-- Concrete instance of C1: with page 7 known and `"\n\nhello"` previously
applied, a revision with the same content issues no call and a revision with
content `"world"` issues the update call. -/
theorem C1_update_or_skip_witness :
    (syncStep sSame revB).2 = [] ∧
    (syncStep sSame revC).2 =
      [Call.update 7 (page_content "world") (commit_info commitC)] :=
  ⟨(C1_update_or_skip sSame revB 7 "hello" rfl rfl rfl rfl).1 (by decide),
   (C1_update_or_skip sSame revC 7 "world" rfl rfl rfl rfl).2 (by decide)⟩

/-- Claim C2: the fetched revision processed right after the one that
successfully created the page issues no destination call at all — even when
its payload differs from the created payload, since `c₂` is arbitrary here —
yet its payload is recorded as `previous_page_content` and the suppression
flag is cleared (lines 402-407); moreover, in a whole replay no call is ever
attributed to that revision's index. -/
theorem C2_create_suppresses_next (s : SyncState) (r₁ r₂ : RevInput)
    (c₁ c₂ : String) (ha : s.aborted = false) (hpid : s.pageId = none)
    (hcr : s.createdThisRun = false) (h₁ : r₁.content = some c₁)
    (hok : r₁.createOk = true) (h₂ : r₂.content = some c₂) :
    (syncStep (syncStep s r₁).1 r₂).2 = [] ∧
    (syncStep (syncStep s r₁).1 r₂).1.prevContent = some (page_content c₂) ∧
    (syncStep (syncStep s r₁).1 r₂).1.processedFirstCommit = false ∧
    (∀ (i : Nat) (rest : List RevInput),
      ∀ p ∈ (syncRun s i (r₁ :: r₂ :: rest)).2, p.1 ≠ i + 1) := by
  have hs₁ := syncStep_create_ok ha hpid hcr h₁ hok
  have ha₁ : (syncStep s r₁).1.aborted = false := by rw [hs₁]
  have hp₁ : (syncStep s r₁).1.pageId = some r₁.newPageId := by rw [hs₁]
  have hf₁ : (syncStep s r₁).1.processedFirstCommit = true := by rw [hs₁]
  have hstep₂ := syncStep_after_create ha₁ hp₁ hf₁ h₂
  refine ⟨by rw [hstep₂], by rw [hstep₂], by rw [hstep₂], ?_⟩
  intro i rest p hp
  simp only [syncRun] at hp
  rcases List.mem_append.mp hp with hp | hp
  · rcases List.mem_map.mp hp with ⟨c, _, rfl⟩
    show i ≠ i + 1
    omega
  · rcases List.mem_append.mp hp with hp | hp
    · rw [hstep₂] at hp
      simp at hp
    · have := syncRun_tag_ge _ (i + 1 + 1) rest p hp
      omega

/-- Concrete instance of C2: after `revA` creates the page, `revC` — whose
payload differs from the created one — issues no call and its payload
becomes the recorded previous content. -/
theorem C2_create_suppresses_next_witness :
    page_content "world" ≠ page_content "hello" ∧
    (syncStep (syncStep (initState none) revA).1 revC).2 = [] ∧
    (syncStep (syncStep (initState none) revA).1 revC).1.prevContent =
      some (page_content "world") :=
  ⟨by decide,
   (C2_create_suppresses_next (initState none) revA revC "hello" "world"
      rfl rfl rfl rfl rfl rfl).1,
   (C2_create_suppresses_next (initState none) revA revC "hello" "world"
      rfl rfl rfl rfl rfl rfl).2.1⟩

/-- Claim C3 (code bug): the claim — and the comment at line 377, "Prepend
Bitbucket info to the content" — say the payload carries a provenance
header derived from the commit, but the f-string at line 378 contains no
placeholder, so the payload is the content behind two bare newlines and is
independent of the commit.  Consequently, at the failing input below — page
7 pre-existing, two commits with identical content `"hello"` but different
messages and authors — the second revision's payload equals the first's and
the update is suppressed, where the claim requires an update call. -/
theorem C3_no_provenance_header :
    commitA.message ≠ commitB.message ∧
    commitA.author ≠ commitB.author ∧
    (∀ content : String, page_content content = "\n\n" ++ content) ∧
    syncCalls (initState (some 7)) [revA, revB] =
      [Call.update 7 (page_content "hello") (commit_info commitA)] :=
  ⟨by decide, by decide, fun _ => rfl, by decide⟩

/-- Claim C4: (a) a file's replay issues at most one page-create call over
any commit sequence; (b) when the page was found pre-existing by exact-name
search, no create call occurs at all; (c) when the content is absent for the
first `k` commits and present at commit `k+1`, no destination call occurs
for the first `k` commits (the earliest call is at index `k`, 0-based),
the first call is the create call attributed to commit `k+1`, and exactly
one create call occurs in the whole replay. -/
theorem C4_at_most_one_create :
    (∀ (found : Option Nat) (rs : List RevInput),
      countCreates (syncCalls (initState found) rs) ≤ 1) ∧
    (∀ (pid : Nat) (rs : List RevInput),
      countCreates (syncCalls (initState (some pid)) rs) = 0) ∧
    (∀ (absents : List RevInput) (r : RevInput) (c : String)
        (rest : List RevInput),
      (∀ a ∈ absents, a.content = none) → r.content = some c →
      (syncRun (initState none) 0 (absents ++ r :: rest)).2.head? =
        some (absents.length,
              Call.create (page_content c) (commit_info r.commit)) ∧
      (∀ p ∈ (syncRun (initState none) 0 (absents ++ r :: rest)).2,
        absents.length ≤ p.1) ∧
      countCreates (syncCalls (initState none) (absents ++ r :: rest)) = 1) := by
  refine ⟨?_, ?_, ?_⟩
  · intro found rs
    exact le_trans (syncRun_creates_le (initState found) 0 rs)
      (createsAllowed_le_one (initState found))
  · intro pid rs
    exact creates_zero_of_found pid rs
  · intro absents r c rest habs hc
    have happ := syncRun_append (initState none) 0 absents (r :: rest)
    rw [syncRun_of_absent 0 habs] at happ
    simp only [List.nil_append, Nat.zero_add] at happ
    have hfirst := syncRun_first_create absents.length r rest c hc
    refine ⟨?_, ?_, ?_⟩
    · rw [happ]
      exact hfirst.1
    · intro p hp
      rw [happ] at hp
      exact syncRun_tag_ge (initState none) absents.length (r :: rest) p hp
    · unfold syncCalls
      rw [happ]
      exact hfirst.2

/-- Concrete instance of C4: a file whose page pre-exists as id 7 issues no
create over two revisions, and a file whose content is absent at the first
commit and `"hello"` at the second issues its single create there, at
index 1, with no earlier call. -/
theorem C4_at_most_one_create_witness :
    countCreates (syncCalls (initState (some 7)) [revA, revC]) = 0 ∧
    (syncRun (initState none) 0 ([revAbsent] ++ revA :: [revC])).2.head? =
      some (1, Call.create (page_content "hello") (commit_info commitA)) ∧
    countCreates (syncCalls (initState none) ([revAbsent] ++ revA :: [revC])) = 1 :=
  ⟨C4_at_most_one_create.2.1 7 [revA, revC],
   (C4_at_most_one_create.2.2 [revAbsent] revA "hello" [revC]
      (by intro a ha; rw [List.mem_singleton] at ha; subst ha; rfl) rfl).1,
   (C4_at_most_one_create.2.2 [revAbsent] revA "hello" [revC]
      (by intro a ha; rw [List.mem_singleton] at ha; subst ha; rfl) rfl).2.2⟩

/-- Claim C5 is false on the code: the diff baseline
`previous_page_content` is re-initialised to `None` at the start of every
replay (line 359), so a second run over an unchanged source does issue an
update call.  Concretely: the first run creates page 7 with payload
`"\n\nhello"`; the second run finds the page (id 7 pre-seeded), its first
diff comparison is `None != "\n\nhello"` — reported as changed, not
unchanged — and an update call is issued. -/
theorem C5_counterexample :
    syncCalls (initState none) [revA] =
      [Call.create (page_content "hello") (commit_info commitA)] ∧
    (initState (some 7)).prevContent ≠ some (page_content "hello") ∧
    syncCalls (initState (some 7)) [revA] =
      [Call.update 7 (page_content "hello") (commit_info commitA)] :=
  ⟨by decide, by decide, by decide⟩

/-- Claim C5 as amended: a second run against an unchanged source issues no
create call (the page is found by exact name, pre-seeding the id), but
update calls are not suppressed across runs: the comparison baseline starts
as `None`, so the first revision with fetched content always issues an
update call, even though the destination already holds the previously
applied content. -/
theorem C5_second_run (pid : Nat) (rs : List RevInput) (r : RevInput)
    (c : String) (hc : r.content = some c) :
    countCreates (syncCalls (initState (some pid)) rs) = 0 ∧
    (syncStep (initState (some pid)) r).2 =
      [Call.update pid (page_content c) (commit_info r.commit)] := by
  refine ⟨creates_zero_of_found pid rs, ?_⟩
  rw [syncStep_update (s := initState (some pid)) rfl rfl rfl hc (by simp [initState])]

/-- Concrete instance of the amended C5: second run over the one-commit
history of `C5_counterexample`. -/
theorem C5_second_run_witness :
    countCreates (syncCalls (initState (some 7)) [revA]) = 0 ∧
    (syncStep (initState (some 7)) revA).2 =
      [Call.update 7 (page_content "hello") (commit_info commitA)] :=
  ⟨(C5_second_run 7 [revA] revA "hello" rfl).1,
   (C5_second_run 7 [revA] revA "hello" rfl).2⟩

/-- Claim C6: `get_snippet_commits` returns the fetched newest-first commit
list reversed to oldest-first (line 115), and the replay loop consumes the
oldest-first sequence index by index, so the destination write calls carry
strictly increasing revision indices: no write for a commit is ever issued
after a write for a later commit. -/
theorem C6_ordering :
    (∀ (pages : List (PageResp Commit)) (cs : List Commit),
      get_paginated_results pages = some cs →
      get_snippet_commits pages = some cs.reverse) ∧
    (∀ (found : Option Nat) (rs : List RevInput),
      List.Pairwise (fun a b : Nat × Call => a.1 < b.1)
        (syncRun (initState found) 0 rs).2) := by
  constructor
  · intro pages cs h
    simp [get_snippet_commits, h]
  · intro found rs
    exact syncRun_tags_sorted (initState found) 0 rs

/-- Concrete instance of C6: a single newest-first page `[commitB, commitA]`
comes back oldest-first, and a two-revision replay has strictly increasing
call indices. -/
theorem C6_ordering_witness :
    get_snippet_commits [PageResp.ok [commitB, commitA] false] =
      some ([commitB, commitA]).reverse ∧
    List.Pairwise (fun a b : Nat × Call => a.1 < b.1)
      (syncRun (initState none) 0 [revA, revC]).2 :=
  ⟨C6_ordering.1 [PageResp.ok [commitB, commitA] false] [commitB, commitA] rfl,
   C6_ordering.2 none [revA, revC]⟩

/-- Claim C7: a failed commit-history fetch makes the engine skip the whole
artifact (line 330), while a successful fetch of zero commits proceeds with
exactly one synthesized commit whose hash is the sentinel `"HEAD"` and
whose date is the artifact's `updated_on` value (line 335), so each file
still replays one revision. -/
theorem C7_empty_history_fallback :
    (∀ u : Option String, resolve_commits none u = none) ∧
    (∀ u : Option String,
      resolve_commits (some []) u = some [synthetic_commit u] ∧
      (resolve_commits (some []) u).map List.length = some 1) ∧
    (∀ t : String,
      (synthetic_commit (some t)).hash = "HEAD" ∧
      (synthetic_commit (some t)).date = t ∧
      (synthetic_commit (some t)).message = "Current state") ∧
    (synthetic_commit none).date = "N/A" :=
  ⟨fun _ => rfl, fun _ => ⟨rfl, rfl⟩, fun _ => ⟨rfl, rfl, rfl⟩, rfl⟩

/-- Claim C8: a transport/JSON failure on any page makes
`get_paginated_results` return the failure sentinel, discarding the items
of the earlier pages (line 66); a well-formed page without the `values` key
stops the walk and returns exactly what was accumulated (line 70); and a
clean walk returns the concatenation of the pages' batches in response
order (lines 72-73). -/
theorem C8_pagination (α : Type) :
    (∀ (vss : List (List α)) (rest : List (PageResp α)),
      get_paginated_results
        ((vss.map fun vs => PageResp.ok vs true) ++ PageResp.fail :: rest) =
        none) ∧
    (∀ (vss : List (List α)) (rest : List (PageResp α)),
      get_paginated_results
        ((vss.map fun vs => PageResp.ok vs true) ++ PageResp.noValues :: rest) =
        some vss.flatten) ∧
    (∀ (vss : List (List α)) (lastBatch : List α),
      get_paginated_results
        ((vss.map fun vs => PageResp.ok vs true) ++ [PageResp.ok lastBatch false]) =
        some (vss.flatten ++ lastBatch)) := by
  refine ⟨?_, ?_, ?_⟩
  · intro vss rest
    induction vss with
    | nil => rfl
    | cons vs vss ih => simp [get_paginated_results, ih]
  · intro vss rest
    induction vss with
    | nil => rfl
    | cons vs vss ih => simp [get_paginated_results, ih]
  · intro vss lastBatch
    induction vss with
    | nil => simp [get_paginated_results]
    | cons vs vss ih => simp [get_paginated_results, ih]

/-- Claim C9: (a) a failed page-create call aborts the rest of that file's
replay — no further revision issues any call — and leaves the file with no
page id and nothing created, which is what line 412 reports as "not
created"; (b) the file loop processes every file by an independent replay,
so a sibling file's calls are exactly its standalone replay whatever
happened to the other files; (c) a revision that issued an update call
leaves the replay unaborted with the page id intact, so the remaining
commits are still attempted — the update result is only logged
(lines 398-399). -/
theorem C9_fault_isolation :
    (∀ (s : SyncState) (r : RevInput) (c : String) (i : Nat)
        (rest : List RevInput),
      s.aborted = false → s.pageId = none → s.createdThisRun = false →
      r.content = some c → r.createOk = false →
      (syncStep s r).2 =
        [Call.create (page_content c) (commit_info r.commit)] ∧
      (syncRun (syncStep s r).1 i rest).2 = [] ∧
      (syncRun (syncStep s r).1 i rest).1.pageId = none ∧
      (syncRun (syncStep s r).1 i rest).1.createdThisRun = false) ∧
    (∀ (skipFlag : Bool) (fs₁ : List FileInput) (f : FileInput)
        (fs₂ : List FileInput),
      process_files skipFlag (fs₁ ++ f :: fs₂) =
        process_files skipFlag fs₁ ++
          (f.name, process_file skipFlag f) :: process_files skipFlag fs₂) ∧
    (∀ (s : SyncState) (r : RevInput) (pid : Nat) (pc info : String),
      (syncStep s r).2 = [Call.update pid pc info] →
      (syncStep s r).1.aborted = false ∧
      (syncStep s r).1.pageId = s.pageId) := by
  refine ⟨?_, ?_, ?_⟩
  · intro s r c i rest ha hpid hcr hc hok
    have hstep := syncStep_create_fail ha hpid hcr hc hok
    have hab : (syncStep s r).1.aborted = true := by rw [hstep]
    have habort := syncRun_of_aborted i rest hab
    refine ⟨by rw [hstep], by rw [habort], ?_, ?_⟩
    · rw [habort, hstep]
      exact hpid
    · rw [habort, hstep]
      exact hcr
  · intro skipFlag fs₁ f fs₂
    simp [process_files]
  · intro s r pid pc info h
    exact syncStep_update_keeps_going s r pid pc info h

/-- Concrete instance of C9: file `x` fails its create at its first
revision and issues nothing afterwards; sibling `y` in the same list is
processed by its own standalone replay; and a failing update on a known
page leaves the replay running. -/
theorem C9_fault_isolation_witness :
    (syncStep (initState none) revAFail).2 =
      [Call.create (page_content "hello") (commit_info commitA)] ∧
    (syncRun (syncStep (initState none) revAFail).1 1 [revC]).2 = [] ∧
    process_files false ([fileX] ++ fileY :: []) =
      process_files false [fileX] ++
        (fileY.name, process_file false fileY) :: process_files false [] ∧
    (syncStep sSame revCUpdFail).1.aborted = false :=
  ⟨(C9_fault_isolation.1 (initState none) revAFail "hello" 1 [revC]
      rfl rfl rfl rfl rfl).1,
   (C9_fault_isolation.1 (initState none) revAFail "hello" 1 [revC]
      rfl rfl rfl rfl rfl).2.1,
   C9_fault_isolation.2.1 false [fileX] fileY [],
   (C9_fault_isolation.2.2 sSame revCUpdFail 7 (page_content "world")
      (commit_info commitC) (by decide)).1⟩

/-- Claim C10 is false on the code for single-artifact runs: with
`--test-snippet-id` set, a failed fetch makes `get_bitbucket_snippets`
return the EMPTY LIST, not the failure sentinel (line 86,
`[snippet_data] if snippet_data else []`), so `main` takes the
"no snippets found" path and exits 0 (line 280) although the artifact
listing could not be retrieved. -/
theorem C10_counterexample :
    get_bitbucket_snippets true (none : Option Unit) [] = some [] ∧
    main_exit_code true (none : Option Unit) [] = 0 :=
  ⟨rfl, rfl⟩

/-- Claim C10 as amended: when the run is NOT restricted to a single
artifact id, the process exits 1 exactly when the paginated snippet listing
fails, and 0 otherwise; when it IS restricted to a single artifact id, the
exit code is 0 in every case — a failed single-snippet fetch yields an
empty list, not the failure sentinel.  Per-item failures never reach the
exit code, which depends only on the initial listing. -/
theorem C10_exit_code (α : Type) (one : Option α) (pages : List (PageResp α)) :
    (main_exit_code false one pages = 1 ↔ get_paginated_results pages = none) ∧
    main_exit_code true one pages = 0 := by
  constructor
  · cases h : get_paginated_results (α := α) pages with
    | none => simp [main_exit_code, get_bitbucket_snippets, h]
    | some l => simp [main_exit_code, get_bitbucket_snippets, h]
  · cases one with
    | none => rfl
    | some s => rfl

/-- Concrete instance of the amended C10: a failing listing page gives exit
code 1 on a full run and exit code 0 on a single-artifact run. -/
theorem C10_exit_code_witness :
    main_exit_code false (none : Option Unit) [PageResp.fail] = 1 ∧
    main_exit_code true (none : Option Unit) [PageResp.fail] = 0 :=
  ⟨(C10_exit_code Unit none [PageResp.fail]).1.mpr rfl,
   (C10_exit_code Unit none [PageResp.fail]).2⟩

end Migrate
